import Mathlib

/-
Verification of the Bayesian M&V engine (src/src/bayesEngine.js).

Shallow embedding conventions:
  * JS numbers are modelled as exact rationals (ℚ) in the linear-algebra /
    posterior-update core (every operation there is field arithmetic and
    comparison), and as exact reals (ℝ) where transcendental functions
    (log, exp, sin, sqrt, π) enter.  Floating-point rounding is abstracted
    away, as the spec's formulas are stated in exact arithmetic.
  * JS array indexing `a[i]` is modelled with `List.getD i 0` (out-of-range
    access yields the junk value 0 where JS would yield undefined/NaN; all
    claims are stated on well-formed inputs where this never triggers).
  * `Math.max(...xs)` over a nonempty list is modelled by a left fold of
    `max` seeded with the first element.
  * The one `Infinity` return value in the engine (logGamma on z ≤ 0) is
    modelled with `EReal`; downstream callers (which by the spec's contract
    only pass positive arguments, where the value is finite) read the value
    back with `EReal.toReal`.
-/

namespace BayesEngine

/-! ## Linear-algebra kernel (matMul .. identityMatrix, bayesEngine.js lines 16-96)

Matrices are `List (List α)` (row-major, as in the source), vectors `List α`.
The kernel is polymorphic in a linear ordered field so that the engine can
use it at ℚ (exact, executable) and the sampler at ℝ. -/

variable {α : Type} [LinearOrderedField α]

/-- vecDot (line 30): `a.reduce((s, ai, i) => s + ai * b[i], 0)`. -/
def vecDot (a b : List α) : α :=
  ((List.range a.length).map (fun i => a.getD i 0 * b.getD i 0)).sum

/-- matVecMul (line 26): `A.map(row => row.reduce((s, a, j) => s + a * v[j], 0))`. -/
def matVecMul (A : List (List α)) (v : List α) : List α :=
  A.map (fun row => vecDot row v)

/-- matMul (line 16): `C[i][j] = Σ_{l < B.length} A[i][l] * B[l][j]`,
with `m = A.length`, `n = B[0].length`, `k = B.length`. -/
def matMul (A B : List (List α)) : List (List α) :=
  (List.range A.length).map (fun i =>
    (List.range (B.headD []).length).map (fun j =>
      ((List.range B.length).map (fun l =>
        (A.getD i []).getD l 0 * (B.getD l []).getD j 0)).sum))

/-- matTranspose (line 34): `n = A[0].length`, entry (j, i) is `A[i][j]`. -/
def matTranspose (A : List (List α)) : List (List α) :=
  (List.range (A.headD []).length).map (fun j =>
    (List.range A.length).map (fun i => (A.getD i []).getD j 0))

/-- matAdd (line 39): `A.map((row, i) => row.map((v, j) => v + B[i][j]))`. -/
def matAdd (A B : List (List α)) : List (List α) :=
  A.mapIdx (fun i row => row.mapIdx (fun j v => v + (B.getD i []).getD j 0))

/-- matScale (line 43): `A.map(row => row.map(v => v * s))`. -/
def matScale (A : List (List α)) (s : α) : List (List α) :=
  A.map (fun row => row.map (fun v => v * s))

/-- identityMatrix (line 94). -/
def identityMatrix (n : ℕ) : List (List α) :=
  (List.range n).map (fun i => (List.range n).map (fun j => if i = j then 1 else 0))

/-- The fixed pivot tolerance 1e-14 used by matInvert and matDet (lines 55, 84). -/
def pivotTol : α := 1 / 10 ^ 14

/-- Swap of two rows, modelling `[aug[col], aug[maxRow]] = [aug[maxRow], aug[col]]`. -/
def listSwap (l : List (List α)) (i j : ℕ) : List (List α) :=
  (l.set i (l.getD j [])).set j (l.getD i [])

/-- Partial-pivot row selection (lines 51-53): starting from `maxRow = col`,
rows `col+1 .. n-1` replace `maxRow` when their column-`col` entry is
strictly larger in absolute value. -/
def pivotRowIdx (aug : List (List α)) (col : ℕ) : ℕ :=
  (List.range (aug.length - (col + 1))).foldl
    (fun best k =>
      let row := col + 1 + k
      if |(aug.getD row []).getD col 0| > |(aug.getD best []).getD col 0| then row else best)
    col

/-- One elimination sweep of Gauss-Jordan (lines 58-62): every row other than
the pivot row subtracts `f` times the (already scaled) pivot row, where `f`
is that row's entry in the pivot column. -/
def gjEliminate (aug : List (List α)) (col : ℕ) : List (List α) :=
  aug.mapIdx (fun r row =>
    if r = col then row
    else
      let f := row.getD col 0
      row.mapIdx (fun j v => v - f * (aug.getD col []).getD j 0))

/-- One column step of Gauss-Jordan with partial pivoting (lines 50-63);
`none` is the designated no-inverse result triggered by a pivot whose
magnitude falls below `pivotTol` (line 55). -/
def gjStep (acc : Option (List (List α))) (col : ℕ) : Option (List (List α)) :=
  acc.bind (fun aug =>
    let aug1 := listSwap aug col (pivotRowIdx aug col)
    let piv := (aug1.getD col []).getD col 0
    if |piv| < pivotTol then none
    else
      let aug2 := aug1.set col ((aug1.getD col []).map (fun v => v / piv))
      some (gjEliminate aug2 col))

/-- matInvert (lines 47-65): Gauss-Jordan on the `[M | I]` augmented matrix,
returning `none` (the designated "no-inverse" result) on a small pivot. -/
def matInvert (M : List (List α)) : Option (List (List α)) :=
  let n := M.length
  let aug := M.mapIdx (fun i row =>
    row ++ (List.range n).map (fun j => if i = j then (1 : α) else 0))
  ((List.range n).foldl gjStep (some aug)).map (fun aug2 => aug2.map (fun row => row.drop n))

/-- Pivot row selection for the LU determinant loop (lines 80-82); same
first-strict-maximum rule as `pivotRowIdx` but scanning rows `i+1 .. n-1`. -/
def detPivotRowIdx (A : List (List α)) (i : ℕ) : ℕ :=
  (List.range (A.length - (i + 1))).foldl
    (fun best k =>
      let row := i + 1 + k
      if |(A.getD row []).getD i 0| > |(A.getD best []).getD i 0| then row else best)
    i

/-- One column step of the LU determinant loop (lines 79-90): pivot, flip the
sign on a row swap, early-out to 0 (encoded `none`) on a small pivot,
multiply the pivot into the determinant and eliminate below the pivot. -/
def detStep (acc : Option (α × List (List α))) (i : ℕ) : Option (α × List (List α)) :=
  acc.bind (fun st =>
    let maxRow := detPivotRowIdx st.2 i
    let det1 := if maxRow ≠ i then -st.1 else st.1
    let A1 := if maxRow ≠ i then listSwap st.2 i maxRow else st.2
    let piv := (A1.getD i []).getD i 0
    if |piv| < pivotTol then none
    else
      let A2 := A1.mapIdx (fun k row =>
        if k ≤ i then row
        else
          let f := row.getD i 0 / piv
          row.mapIdx (fun j v => if j < i then v else v - f * (A1.getD i []).getD j 0))
      some (det1 * piv, A2))

/-- matDet (lines 67-92): closed forms for 1x1 / 2x2 / 3x3, LU with partial
pivoting otherwise (the LU early-return 0 is the `none` branch). -/
def matDet (M : List (List α)) : α :=
  let n := M.length
  if n = 1 then (M.headD []).getD 0 0
  else if n = 2 then
    (M.getD 0 []).getD 0 0 * (M.getD 1 []).getD 1 0
      - (M.getD 0 []).getD 1 0 * (M.getD 1 []).getD 0 0
  else if n = 3 then
    (M.getD 0 []).getD 0 0 *
        ((M.getD 1 []).getD 1 0 * (M.getD 2 []).getD 2 0
          - (M.getD 1 []).getD 2 0 * (M.getD 2 []).getD 1 0)
      - (M.getD 0 []).getD 1 0 *
        ((M.getD 1 []).getD 0 0 * (M.getD 2 []).getD 2 0
          - (M.getD 1 []).getD 2 0 * (M.getD 2 []).getD 0 0)
      + (M.getD 0 []).getD 2 0 *
        ((M.getD 1 []).getD 0 0 * (M.getD 2 []).getD 1 0
          - (M.getD 1 []).getD 1 0 * (M.getD 2 []).getD 0 0)
  else
    match (List.range n).foldl detStep (some ((1 : α), M.map (fun r => r))) with
    | none => 0
    | some st => st.1

/-! ## Conjugate regression core (bayesianRegression, lines 237-300) -/

/-- Elementwise vector sum (line 263): `Lambda0_mu0.map((v, j) => v + Xty[j])`. -/
def vecAdd (a b : List α) : List α :=
  a.mapIdx (fun j v => v + b.getD j 0)

/-- The accumulation loop for XtX2 (lines 245-249):
`XtX2[j][k] = Σ_{i < n} X[i][j] * X[i][k]` with `n = y.length`. -/
def xtxAcc (X : List (List α)) (p n : ℕ) : List (List α) :=
  (List.range p).map (fun j =>
    (List.range p).map (fun k =>
      ((List.range n).map (fun i =>
        (X.getD i []).getD j 0 * (X.getD i []).getD k 0)).sum))

/-- The accumulation loop for Xty (lines 251-254):
`Xty[j] = Σ_{i < n} X[i][j] * y[i]`. -/
def xtyAcc (X : List (List α)) (y : List α) (p : ℕ) : List α :=
  (List.range p).map (fun j =>
    ((List.range y.length).map (fun i =>
      (X.getD i []).getD j 0 * y.getD i 0)).sum)

/-- The posterior record returned by bayesianRegression (lines 292-299).
All fields are rational.  The display-only field `cvRMSE_OLS` (a square
root, hence real-valued) is not referenced by any claim and is omitted;
`logML` is real-valued and is computed by `logMLof` below from the same
inputs the source uses (the source stores it in this record). -/
structure Post where
  muN : List ℚ
  LambdaN : List (List ℚ)
  LambdaN_inv : List (List ℚ)
  aN : ℚ
  bN : ℚ
  n : ℕ
  p : ℕ
  betaOLS : List ℚ
  R2 : ℚ
  deriving DecidableEq

/-- bayesianRegression (lines 237-300), rational core.  The dead computation
of `XtX` at lines 241-243 (immediately recomputed "properly" as `XtX2` and
never read) is skipped.  Division by zero in `R2` yields the junk value 0
where JS would yield NaN (display-only field, untouched by claims). -/
def bayesianRegression (X : List (List ℚ)) (y mu0 : List ℚ) (Lambda0 : List (List ℚ))
    (a0 b0 : ℚ) : Option Post :=
  let n := y.length
  let p := (X.headD []).length
  let XtX2 := xtxAcc X p n
  let Xty := xtyAcc X y p
  let LambdaN := matAdd Lambda0 XtX2
  match matInvert LambdaN with
  | none => none
  | some LambdaN_inv =>
    let Lambda0_mu0 := matVecMul Lambda0 mu0
    let sum0 := vecAdd Lambda0_mu0 Xty
    let muN := matVecMul LambdaN_inv sum0
    let aN := a0 + (n : ℚ) / 2
    let yty := vecDot y y
    let mu0_L0_mu0 := vecDot mu0 (matVecMul Lambda0 mu0)
    let muN_LN_muN := vecDot muN (matVecMul LambdaN muN)
    let bN := b0 + (1 / 2) * (yty + mu0_L0_mu0 - muN_LN_muN)
    let betaOLS := match matInvert XtX2 with
      | some XtX_inv => matVecMul XtX_inv Xty
      | none => muN
    let yHat := X.map (fun xi => vecDot xi betaOLS)
    let residuals := y.mapIdx (fun i yi => yi - yHat.getD i 0)
    let SSres := residuals.foldl (fun s r => s + r * r) 0
    let yMean := y.foldl (fun a b => a + b) 0 / (n : ℚ)
    let SStot := y.foldl (fun s yi => s + (yi - yMean) ^ 2) 0
    some ⟨muN, LambdaN, LambdaN_inv, aN, bN, n, p, betaOLS, 1 - SSres / SStot⟩

/-! ## Special-function library (lines 102-204)

These are real-valued; `logGamma` is `EReal`-valued because the source
returns `Infinity` for `z ≤ 0` (line 104). -/

/-- The nine Lanczos coefficients (lines 106-110). -/
noncomputable def lanczosCoef : List ℝ :=
  [0.99999999999980993, 676.5203681218851, -1259.1392167224028,
   771.32342877765313, -176.61502916214059, 12.507343278686905,
   -0.13857109526572012, 9.9843695780195716e-6, 1.5056327351493116e-7]

/-- The Lanczos branch of logGamma (lines 114-118, the path taken when
`z ≥ 0.5`): with `g = 7`, after `z -= 1`, sum `coef[0] + Σ_{i=1}^{8}
coef[i]/(z+i)`, then `0.5·log(2π) + (z+0.5)·log t − t + log x` with
`t = z + g + 0.5`. -/
noncomputable def lanczosLogGamma (z : ℝ) : ℝ :=
  let z1 := z - 1
  let x := (List.range 8).foldl
    (fun acc (i : ℕ) => acc + lanczosCoef.getD (i + 1) 0 / (z1 + ((i : ℝ) + 1)))
    (lanczosCoef.getD 0 0)
  let t := z1 + 7 + 0.5
  0.5 * Real.log (2 * Real.pi) + (z1 + 0.5) * Real.log t - t + Real.log x

open Classical in
/-- logGamma (lines 103-119): `Infinity` (modelled `⊤ : EReal`) for `z ≤ 0`;
the reflection formula `log(π/sin(πz)) − logGamma(1−z)` for `0 < z < 0.5`
(which recurses — the recursion is well-founded because `1 − z > 0.5`);
the Lanczos approximation otherwise. -/
noncomputable def logGamma (z : ℝ) : EReal :=
  if z ≤ 0 then ⊤
  else if h : z < 1 / 2 then
    ((Real.log (Real.pi / Real.sin (Real.pi * z)) : ℝ) : EReal) - logGamma (1 - z)
  else ((lanczosLogGamma z : ℝ) : EReal)
termination_by (if z < 1 / 2 then (1 : ℕ) else 0)
decreasing_by
  rw [if_pos h, if_neg (by linarith)]
  exact Nat.zero_lt_one

/-- Finite reading of `logGamma`, used by every caller in the engine.  The
spec's contract (failure policy, section 4.2) guarantees callers only pass
positive shape arguments, where `logGamma` is the finite Lanczos/reflection
value and `EReal.toReal` is the identity on it. -/
noncomputable def lgR (z : ℝ) : ℝ := (logGamma z).toReal

/-- Continued-fraction loop body of betaCF (lines 178-190), Lentz's method.
Arguments `m` is the (real-valued) iteration counter, `fuel` the remaining
iterations out of maxIter = 200, then the running `c`, `d` (post-inversion)
and `h`; the `1e-30` floors and the `eps = 1e-14` early exit are verbatim. -/
noncomputable def betaCFgo (a b x qab qap qam : ℝ) :
    ℕ → ℝ → ℝ → ℝ → ℝ → ℝ
  | 0, _, _, _, h => h
  | fuel + 1, m, c, d, h =>
    let m2 := 2 * m
    let aa := m * (b - m) * x / ((qam + m2) * (a + m2))
    let d1 := 1 + aa * d
    let d2 := if |d1| < 1e-30 then 1e-30 else d1
    let d3 := 1 / d2
    let c1 := 1 + aa / c
    let c2 := if |c1| < 1e-30 then 1e-30 else c1
    let h1 := h * d3 * c2
    let aa2 := -((a + m) * (qab + m)) * x / ((a + m2) * (qap + m2))
    let d4 := 1 + aa2 * d3
    let d5 := if |d4| < 1e-30 then 1e-30 else d4
    let d6 := 1 / d5
    let c3 := 1 + aa2 / c2
    let c4 := if |c3| < 1e-30 then 1e-30 else c3
    let del := d6 * c4
    let h2 := h1 * del
    if |del - 1| < 1e-14 then h2
    else betaCFgo a b x qab qap qam fuel (m + 1) c4 d6 h2

/-- betaCF (lines 171-192): Lentz continued fraction with maxIter = 200. -/
noncomputable def betaCF (a b x : ℝ) : ℝ :=
  let qab := a + b
  let qap := a + 1
  let qam := a - 1
  let d0 := 1 - qab * x / qap
  let d1 := if |d0| < 1e-30 then 1e-30 else d0
  let d := 1 / d1
  betaCFgo a b x qab qap qam 200 1 1 d d

/-- regIncBeta (lines 157-169): regularized incomplete beta via the
continued fraction on whichever side converges faster. -/
noncomputable def regIncBeta (a b x : ℝ) : ℝ :=
  if x ≤ 0 then 0
  else if 1 ≤ x then 1
  else
    let lnBeta := lgR a + lgR b - lgR (a + b)
    let front := Real.exp (Real.log x * a + Real.log (1 - x) * b - lnBeta)
    if x < (a + 1) / (a + b + 2) then front * betaCF a b x / a
    else 1 - front * betaCF b a (1 - x) / b

/-- studentTPDF (lines 122-128). -/
noncomputable def studentTPDF (x nu mu scale : ℝ) : ℝ :=
  let z := (x - mu) / scale
  Real.exp (lgR ((nu + 1) / 2) - lgR (nu / 2)
    - 0.5 * Real.log (nu * Real.pi) - Real.log scale
    - ((nu + 1) / 2) * Real.log (1 + z * z / nu))

/-- studentTCDF (lines 131-140) via the incomplete beta relation. -/
noncomputable def studentTCDF (x nu mu scale : ℝ) : ℝ :=
  let z := (x - mu) / scale
  let t := nu / (nu + z * z)
  if 0 ≤ z then 1 - 0.5 * regIncBeta (nu / 2) 0.5 t
  else 0.5 * regIncBeta (nu / 2) 0.5 t

/-- The 80-iteration bisection loop of studentTQuantile (lines 148-152). -/
noncomputable def qBisect (nu mu scale p : ℝ) : ℕ → ℝ → ℝ → ℝ × ℝ
  | 0, lo, hi => (lo, hi)
  | k + 1, lo, hi =>
    let mid := (lo + hi) / 2
    if studentTCDF mid nu mu scale < p then qBisect nu mu scale p k mid hi
    else qBisect nu mu scale p k lo mid

open Classical in
/-- studentTQuantile (lines 143-154): `-Infinity` / `Infinity` (modelled as
`⊥` / `⊤ : EReal`) outside (0,1), the location for `p = 0.5` exactly, else
bisection over `[mu − 50·scale, mu + 50·scale]` for 80 iterations. -/
noncomputable def studentTQuantile (p nu mu scale : ℝ) : EReal :=
  if p ≤ 0 then ⊥
  else if 1 ≤ p then ⊤
  else if p = 0.5 then ((mu : ℝ) : EReal)
  else
    let r := qBisect nu mu scale p 80 (mu - 50 * scale) (mu + 50 * scale)
    (((r.1 + r.2) / 2 : ℝ) : EReal)

/-! ## Posterior summarization (parameterPosterior, lines 371-395) -/

/-- Result record of parameterPosterior (line 394): `{ points, mean, ci95,
ci80, nu, scale }`.  The source object carries no `ci50` key — reading it
in JS yields `undefined` — which is modelled by an `Option` field that the
constructor always sets to `none`. -/
structure MarginalSummary where
  points : List (ℝ × ℝ)
  mean : ℝ
  ci95 : EReal × EReal
  ci80 : EReal × EReal
  ci50 : Option (EReal × EReal)
  nu : ℝ
  scale : ℝ

/-- The density-curve loop of parameterPosterior (lines 377-382): `nPoints`
pairs (x, pdf x) with x stepping from `mu − range` to `mu + range`,
`range = 4·scale`. -/
noncomputable def curvePoints (nu mu scale : ℝ) (nPoints : ℕ) : List (ℝ × ℝ) :=
  let range := 4 * scale
  (List.range nPoints).map (fun (i : ℕ) =>
    let x := mu - range + 2 * range * (i : ℝ) / ((nPoints : ℝ) - 1)
    (x, studentTPDF x nu mu scale))

/-- parameterPosterior (lines 371-395): Student-t marginal for coefficient
`paramIndex` with ν = 2aN, location muN[j], scale sqrt((bN/aN)·[ΛN⁻¹]_jj);
density curve of `nPoints` points over ±4 scale units; 95% and 80%
credible intervals by quantile (the source computes no 50% interval). -/
noncomputable def parameterPosterior (post : Post) (paramIndex : ℕ) (nPoints : ℕ) :
    MarginalSummary :=
  let nu := 2 * (post.aN : ℝ)
  let mu := ((post.muN.getD paramIndex 0 : ℚ) : ℝ)
  let scale := Real.sqrt (((post.bN / post.aN : ℚ) : ℝ)
    * (((post.LambdaN_inv.getD paramIndex []).getD paramIndex 0 : ℚ) : ℝ))
  let points := curvePoints nu mu scale nPoints
  ⟨points, mu,
    (studentTQuantile 0.025 nu mu scale, studentTQuantile 0.975 nu mu scale),
    (studentTQuantile 0.10 nu mu scale, studentTQuantile 0.90 nu mu scale),
    none, nu, scale⟩

/-! ## Design matrix, priors and change-point search (lines 213-361) -/

/-- buildDesignMatrix (lines 213-224).  The change-point arguments default
to `null` in the source; JS coerces `null` to 0 in arithmetic, which the
`Option.getD 0` reading reproduces.  Every model tag other than "3PH",
"3PC" and "5P" falls to the default branch `[1, t]`. -/
def buildDesignMatrix (temps : List ℚ) (modelType : String) (cp1 cp2 : Option ℚ) :
    List (List ℚ) :=
  if modelType = "3PH" then temps.map (fun t => [1, max 0 (cp1.getD 0 - t)])
  else if modelType = "3PC" then temps.map (fun t => [1, max 0 (t - cp1.getD 0)])
  else if modelType = "5P" then
    temps.map (fun t => [1, max 0 (cp1.getD 0 - t), max 0 (t - cp2.getD 0)])
  else temps.map (fun t => [1, t])

/-- User-facing prior sliders (lines 340-361).  `slope2` is optional; the
source reads it as `priors.slope2 || priors.slope`, and JS `||` also treats
an explicit 0 as absent, which `jsOr` reproduces. -/
structure Priors where
  baseload : ℚ
  slope : ℚ
  slope2 : Option ℚ
  strength : ℚ
  noiseA : ℚ
  noiseB : ℚ
  deriving DecidableEq

/-- JS `a || b` for an optional numeric field: `b` when absent or zero. -/
def jsOr (a : Option ℚ) (b : ℚ) : ℚ :=
  match a with
  | some v => if v = 0 then b else v
  | none => b

/-- Prior parameters produced by buildPriorParams (lines 351-361). -/
structure PriorParams where
  mu0 : List ℚ
  Lambda0 : List (List ℚ)
  a0 : ℚ
  b0 : ℚ
  deriving DecidableEq

/-- buildPriorParams (lines 351-361): diagonal prior precision scaled by
`strength`, means from the sliders. -/
def buildPriorParams (priors : Priors) (p : ℕ) : PriorParams :=
  let mu0 := if p = 2 then [priors.baseload, priors.slope]
    else [priors.baseload, priors.slope, jsOr priors.slope2 priors.slope]
  let Lambda0 := (identityMatrix p : List (List ℚ)).map
    (fun row => row.map (fun v => v * priors.strength))
  ⟨mu0, Lambda0, priors.noiseA, priors.noiseB⟩

/-- Minimum of the temperature list (`Math.min(...temps)`); junk 0 on the
empty list (the source would give `Infinity`, but every use below either
receives a nonempty list or ignores the value). -/
def tMinOf (temps : List ℚ) : ℚ :=
  match temps with
  | [] => 0
  | t :: ts => ts.foldl min t

/-- Maximum of the temperature list (`Math.max(...temps)`). -/
def tMaxOf (temps : List ℚ) : ℚ :=
  match temps with
  | [] => 0
  | t :: ts => ts.foldl max t

/-- The values visited by `for (cp = lo; cp <= hi; cp += step)` in exact
arithmetic: `lo, lo + step, …` while `≤ hi`.  (For `step ≤ 0` the JS loop
would not terminate when `lo ≤ hi`; the claims about the scan assume the
positive step the source always uses, and the model returns `[]` there.) -/
def gridPts (lo hi step : ℚ) : List ℚ :=
  if lo ≤ hi ∧ 0 < step then
    (List.range (Nat.floor ((hi - lo) / step) + 1)).map (fun (k : ℕ) => lo + (k : ℚ) * step)
  else []

/-- The candidate grid of changePointPosterior (lines 311-327): single
change points `tMin+3 .. tMax−3` at `cpStep` for "3PH"/"3PC"; the 2-D grid
`cph ∈ tMin+4 .. tMax−10` (step 1), `cpc ∈ cph+6 .. tMax−4` (step 1) for
"5P"; empty otherwise. -/
def candGrid (temps : List ℚ) (modelType : String) (cpStep : ℚ) :
    List (ℚ × Option ℚ) :=
  let tMin := tMinOf temps
  let tMax := tMaxOf temps
  if modelType = "3PH" ∨ modelType = "3PC" then
    (gridPts (tMin + 3) (tMax - 3) cpStep).map (fun cp => (cp, none))
  else if modelType = "5P" then
    (gridPts (tMin + 4) (tMax - 10) 1).flatMap (fun cph =>
      (gridPts (cph + 6) (tMax - 4) 1).map (fun cpc => (cph, some cpc)))
  else []

/-- The regression run at one grid point (lines 313-315 / 321-323): build
the design, derive the priors from the slider values and the parameter
count, and run the conjugate update. -/
def candReg (temps y : List ℚ) (modelType : String) (priors : Priors)
    (pr : ℚ × Option ℚ) : Option Post :=
  let X := buildDesignMatrix temps modelType (some pr.1) pr.2
  let pp := buildPriorParams priors (X.headD []).length
  bayesianRegression X y pp.mu0 pp.Lambda0 pp.a0 pp.b0

/-- A valid scan candidate: grid point plus its posterior.  Grid points whose
regression returns the designated failure contribute nothing (the `if
(post)` guard at lines 316/324 becomes the `filterMap`). -/
structure Cand where
  cp : ℚ
  cp2 : Option ℚ
  post : Post
  deriving DecidableEq

/-- The scan phase of changePointPosterior (lines 306-327): every grid point
is scored; singular candidates are dropped silently. -/
def scanCands (temps y : List ℚ) (modelType : String) (priors : Priors)
    (cpStep : ℚ) : List Cand :=
  (candGrid temps modelType cpStep).filterMap (fun pr =>
    (candReg temps y modelType priors pr).map (fun post => ⟨pr.1, pr.2, post⟩))

/-- logML as computed at lines 276-281 from the posterior record and the
prior: `−n/2·log(2π) + ½·log|Λ0| − ½·log|ΛN| + a0·log b0 − aN·log bN +
logΓ(aN) − logΓ(a0)`, with `log|·|` the log of the absolute determinant. -/
noncomputable def logMLof (Lambda0 : List (List ℚ)) (a0 b0 : ℚ) (post : Post) : ℝ :=
  -(post.n : ℝ) / 2 * Real.log (2 * Real.pi)
    + 0.5 * Real.log |((matDet Lambda0 : ℚ) : ℝ)|
    - 0.5 * Real.log |((matDet post.LambdaN : ℚ) : ℝ)|
    + (a0 : ℝ) * Real.log (b0 : ℝ) - (post.aN : ℝ) * Real.log (post.bN : ℝ)
    + lgR (post.aN : ℝ) - lgR (a0 : ℝ)

/-- The log marginal likelihood of one scan candidate: `logMLof` applied to
the same prior parameters the candidate was scored with. -/
noncomputable def candLogML (priors : Priors) (post : Post) : ℝ :=
  let pp := buildPriorParams priors post.p
  logMLof pp.Lambda0 pp.a0 pp.b0 post

/-- One entry of the sequence returned by changePointPosterior: candidate
location(s), logML, posterior record and normalized posterior probability. -/
structure CPResult where
  cp : ℚ
  cp2 : Option ℚ
  logML : ℝ
  post : Post
  posterior : ℝ

/-- changePointPosterior (lines 306-338): scan, then — when at least one
valid candidate exists — normalize `exp(logML − max logML)` into posterior
probabilities; the empty scan returns the empty sequence (line 329). -/
noncomputable def changePointPosterior (temps y : List ℚ) (modelType : String)
    (priors : Priors) (cpStep : ℚ) : List CPResult :=
  match scanCands temps y modelType priors cpStep with
  | [] => []
  | c :: cs =>
    let all := c :: cs
    let mls := all.map (fun cand => candLogML priors cand.post)
    let maxLogML := mls.foldl max (candLogML priors c.post)
    let Z := (mls.map (fun l => Real.exp (l - maxLogML))).sum
    all.map (fun cand =>
      ⟨cand.cp, cand.cp2, candLogML priors cand.post, cand.post,
        Real.exp (candLogML priors cand.post - maxLogML) / Z⟩)

/-! ## Monte Carlo savings posterior (savingsPosterior, lines 489-542)

Randomness model: each iteration of the sampling loop draws σ² (inverse
gamma, rejection-sampled from `Math.random`) and β = muN + chol(σ²ΛN⁻¹)·z
(Box-Muller normals).  The rejection loops are not total functions of any
finite input, and the claims quantify over "any realization of the random
draws", so the draws enter the model as an oracle `betaDraw : ℕ → List ℝ`
giving the coefficient vector sampled in iteration `s` (σ² influences the
result only through β).  Everything downstream of the draws — the savings
accumulation, sort, index statistics, and histogram — is embedded from the
source. -/

/-- One reporting-period observation `{ temp, actual }`. -/
structure RDatum where
  temp : ℝ
  actual : ℝ

/-- The per-observation regressor row built inside the sampling loop
(lines 504-510), same hinge construction as the training design. -/
noncomputable def predictorVec (modelType : String) (cp1 cp2 t : ℝ) : List ℝ :=
  if modelType = "3PH" then [1, max 0 (cp1 - t)]
  else if modelType = "3PC" then [1, max 0 (t - cp1)]
  else if modelType = "5P" then [1, max 0 (cp1 - t), max 0 (t - cp2)]
  else [1, t]

/-- Total savings of one posterior sample (lines 501-514):
`Σ_d (xStar(d.temp)·β − d.actual)`. -/
noncomputable def savingsSample (modelType : String) (cp1 cp2 : ℝ)
    (reportingData : List RDatum) (beta : List ℝ) : ℝ :=
  (reportingData.map (fun d =>
    vecDot (predictorVec modelType cp1 cp2 d.temp) beta - d.actual)).sum

/-- One histogram bin (lines 528-533): center, edges, count, density. -/
structure SavingsBin where
  x : ℝ
  lo : ℝ
  hi : ℝ
  count : ℕ
  density : ℝ

/-- The result record of savingsPosterior (line 541). -/
structure SavingsResult where
  samples : List ℝ
  mean : ℝ
  median : ℝ
  ci95 : ℝ × ℝ
  ci80 : ℝ × ℝ
  bins : List SavingsBin
  maxCount : ℕ

/-- Quantile index `Math.floor(nSamples * frac)`. -/
def qIdx (nSamples : ℕ) (frac : ℚ) : ℕ := Nat.floor ((nSamples : ℚ) * frac)

open Classical in
/-- The bin a sample falls into (line 535):
`min(floor((s − sMin)/binWidth), binCount − 1)`.  This is only evaluated on
the non-degenerate path `binWidth ≠ 0` (see `savingsPosterior`); when
`binWidth = 0` and a sample exists, the source computes `(s − sMin)/0 =
0/0 = NaN` and `bins[NaN].count++` throws a TypeError, which the caller
models as its designated no-result value rather than through this
function. -/
noncomputable def binIdxOf (sMin binWidth : ℝ) (s : ℝ) : ℕ :=
  min (⌊(s - sMin) / binWidth⌋.toNat) 49

open Classical in
/-- The sorted sample sequence (lines 493-517): `nSamples` savings totals,
sorted ascending.  The source sorts with `samples.sort((a, b) => a - b)`;
any sorting algorithm yields the same ascending list of reals, modelled
with insertion sort. -/
noncomputable def savingsSamples (modelType : String) (cp1 cp2 : ℝ)
    (reportingData : List RDatum) (nSamples : ℕ) (betaDraw : ℕ → List ℝ) : List ℝ :=
  ((List.range nSamples).map (fun s =>
    savingsSample modelType cp1 cp2 reportingData (betaDraw s))).insertionSort (· ≤ ·)

open Classical in
/-- The histogram loop (lines 525-539): 50 equal-width bins over
`[sMin, sMin + 50·binWidth]`, each sample counted into its clamped bin. -/
noncomputable def histBins (samples : List ℝ) (nSamples : ℕ) (sMin binWidth : ℝ) :
    List SavingsBin :=
  (List.range 50).map (fun (i : ℕ) =>
    let count := samples.countP (fun s => decide (binIdxOf sMin binWidth s = i))
    ⟨sMin + ((i : ℝ) + 0.5) * binWidth,
      sMin + (i : ℝ) * binWidth,
      sMin + ((i : ℝ) + 1) * binWidth,
      count,
      (count : ℝ) / ((nSamples : ℝ) * binWidth)⟩)

open Classical in
/-- savingsPosterior (lines 489-542) given the draw oracle: draw and sort
`nSamples` savings totals, read mean/median/80%/95% intervals off by
index, and bin the samples into 50 equal-width bins over the sample range.
The source also takes the (unused here) posterior record; draws depend on
it only through the oracle.

The binning loop is fallible: when `binWidth = (sMax − sMin)/50 = 0` and at
least one sample exists (every sample then equals `sMin`, which always
holds at `nSamples = 1`), line 535 computes `0/0 = NaN` and line 536
executes `bins[NaN].count++` — a TypeError — so the source throws instead
of returning.  That thrown path is the `none` branch; on the `binWidth ≠ 0`
path every bin index lies in `[0, 49]` and the source returns the record. -/
noncomputable def savingsPosterior (modelType : String) (cp1 cp2 : ℝ)
    (reportingData : List RDatum) (nSamples : ℕ) (betaDraw : ℕ → List ℝ) :
    Option SavingsResult :=
  let samples := savingsSamples modelType cp1 cp2 reportingData nSamples betaDraw
  let mean := samples.foldl (fun a b => a + b) 0 / (nSamples : ℝ)
  let ci95 := (samples.getD (qIdx nSamples (25 / 1000)) 0,
    samples.getD (qIdx nSamples (975 / 1000)) 0)
  let ci80 := (samples.getD (qIdx nSamples (10 / 100)) 0,
    samples.getD (qIdx nSamples (90 / 100)) 0)
  let median := samples.getD (qIdx nSamples (5 / 10)) 0
  let sMin := samples.getD 0 0
  let sMax := samples.getD (nSamples - 1) 0
  let binWidth := (sMax - sMin) / 50
  if samples ≠ [] ∧ binWidth = 0 then none
  else
    let bins := histBins samples nSamples sMin binWidth
    let maxCount := (bins.map (fun b => b.count)).foldl max 0
    some ⟨samples, mean, median, ci95, ci80, bins, maxCount⟩

/-! ## Helper lemmas -/

theorem getD_range_map {β : Type} (f : ℕ → β) (n i : ℕ) (d : β) :
    (((List.range n).map f).getD i d) = if i < n then f i else d := by
  rcases Nat.lt_or_ge i n with h | h
  · rw [if_pos h, List.getD_eq_getElem?_getD, List.getElem?_map, List.getElem?_range h]
    rfl
  · rw [if_neg (Nat.not_lt.mpr h), List.getD_eq_getElem?_getD, List.getElem?_eq_none]
    · rfl
    · simpa using h

theorem matMul_transpose_eq_xtxAcc (X : List (List ℚ)) (n : ℕ) (hn : X.length = n) :
    matMul (matTranspose X) X = xtxAcc X (X.headD []).length n := by
  subst hn
  unfold matMul matTranspose xtxAcc
  simp only [List.length_map, List.length_range]
  apply List.map_congr_left
  intro j hj
  rw [List.mem_range] at hj
  apply List.map_congr_left
  intro k hk
  congr 1
  apply List.map_congr_left
  intro l hl
  rw [List.mem_range] at hl
  rw [getD_range_map, if_pos hj, getD_range_map, if_pos hl]

theorem matVecMul_transpose_eq_xtyAcc (X : List (List ℚ)) (y : List ℚ)
    (hn : X.length = y.length) :
    matVecMul (matTranspose X) y = xtyAcc X y (X.headD []).length := by
  unfold matVecMul matTranspose xtyAcc vecDot
  rw [List.map_map]
  apply List.map_congr_left
  intro j hj
  rw [List.mem_range] at hj
  simp only [Function.comp, List.length_map, List.length_range]
  rw [hn]
  congr 1
  apply List.map_congr_left
  intro i hi
  rw [List.mem_range] at hi
  rw [getD_range_map, if_pos]
  omega

theorem bayesReg_aN (X : List (List ℚ)) (y mu0 : List ℚ) (Lambda0 : List (List ℚ))
    (a0 b0 : ℚ) (post : Post)
    (h : bayesianRegression X y mu0 Lambda0 a0 b0 = some post) :
    post.aN = a0 + (y.length : ℚ) / 2 ∧ post.n = y.length := by
  rcases hInv : matInvert (matAdd Lambda0 (xtxAcc X (X.headD []).length y.length))
    with _ | L
  · simp only [bayesianRegression, hInv] at h
    exact Option.noConfusion h
  · simp only [bayesianRegression, hInv, Option.some.injEq] at h
    subst h
    exact ⟨rfl, rfl⟩

theorem list_sum_map_div (l : List ℝ) (z : ℝ) :
    (l.map (fun x => x / z)).sum = l.sum / z := by
  induction l with
  | nil => simp
  | cons a t ih => simp [ih, add_div]

theorem sum_exp_div_sum_exp (l : List ℝ) (m : ℝ) (hl : l ≠ []) :
    (l.map (fun x => Real.exp (x - m)
      / ((l.map (fun x2 => Real.exp (x2 - m))).sum))).sum = 1 := by
  have hZpos : 0 < (l.map (fun x2 => Real.exp (x2 - m))).sum := by
    apply List.sum_pos
    · intro x hx
      obtain ⟨a, ha, rfl⟩ := List.mem_map.mp hx
      exact Real.exp_pos _
    · simpa using hl
  rw [show (fun x => Real.exp (x - m) / ((l.map (fun x2 => Real.exp (x2 - m))).sum))
      = (fun t => t / ((l.map (fun x2 => Real.exp (x2 - m))).sum))
        ∘ (fun x => Real.exp (x - m)) from rfl]
  rw [← List.map_map, list_sum_map_div]
  exact div_self hZpos.ne'

theorem cpPosterior_map_locations (temps y : List ℚ) (modelType : String)
    (priors : Priors) (cpStep : ℚ) :
    (changePointPosterior temps y modelType priors cpStep).map (fun r => (r.cp, r.cp2))
      = (scanCands temps y modelType priors cpStep).map (fun c => (c.cp, c.cp2)) := by
  cases hs : scanCands temps y modelType priors cpStep with
  | nil => simp [changePointPosterior, hs]
  | cons c cs =>
    unfold changePointPosterior
    rw [hs]
    simp [List.map_map, Function.comp]

theorem curvePoints_length (nu mu scale : ℝ) (n : ℕ) :
    (curvePoints nu mu scale n).length = n := by
  simp [curvePoints]

theorem curvePoints_getD (nu mu scale : ℝ) (n i : ℕ) (h : i < n) :
    (curvePoints nu mu scale n).getD i (0, 0)
      = (mu - 4 * scale + 2 * (4 * scale) * (i : ℝ) / ((n : ℝ) - 1),
        studentTPDF (mu - 4 * scale + 2 * (4 * scale) * (i : ℝ) / ((n : ℝ) - 1))
          nu mu scale) := by
  unfold curvePoints
  rw [getD_range_map, if_pos h]

theorem curvePoints_snd (nu mu scale : ℝ) (n : ℕ) :
    ∀ q ∈ curvePoints nu mu scale n, q.2 = studentTPDF q.1 nu mu scale := by
  intro q hq
  unfold curvePoints at hq
  obtain ⟨i, hi, rfl⟩ := List.mem_map.mp hq
  rfl

theorem curvePoints_pairwise (nu mu scale : ℝ) (n : ℕ) (hs : 0 ≤ scale) :
    (curvePoints nu mu scale n).Pairwise (fun q1 q2 => q1.1 ≤ q2.1) := by
  unfold curvePoints
  rw [List.pairwise_map]
  refine List.Pairwise.imp_of_mem ?_ (List.pairwise_lt_range n)
  intro a b ha hb hab
  rw [List.mem_range] at ha hb
  have hn2 : 2 ≤ n := by omega
  have hd : (0 : ℝ) < (n : ℝ) - 1 := by
    have : (2 : ℝ) ≤ (n : ℝ) := by exact_mod_cast hn2
    linarith
  have hab2 : (a : ℝ) ≤ (b : ℝ) := by exact_mod_cast hab.le
  have h1 : 2 * (4 * scale) * (a : ℝ) ≤ 2 * (4 * scale) * (b : ℝ) := by nlinarith
  have h2 := (div_le_div_right hd).mpr h1
  simp only
  linarith

/-! ## Claim theorems -/

/-- Claim C1: for every design matrix X (n rows, p columns), response y of
length n and NIG prior (mu0, Lambda0, a0, b0) whose posterior precision
LambdaN = Lambda0 + XᵀX is invertible (as reported by the kernel's invert),
bayesianRegression returns exactly the Normal-Inverse-Gamma update:
LambdaN = Lambda0 + XᵀX, muN = LambdaN⁻¹(Lambda0·mu0 + Xᵀy), aN = a0 + n/2,
bN = b0 + ½(yᵀy + mu0ᵀΛ0mu0 − muNᵀΛNmuN), and logML = −n/2·log(2π) +
½log|Λ0| − ½log|ΛN| + a0·log b0 − aN·log bN + logΓ(aN) − logΓ(a0). -/
theorem C1_conjugate_update (X : List (List ℚ)) (y mu0 : List ℚ)
    (Lambda0 : List (List ℚ)) (a0 b0 : ℚ) (L : List (List ℚ))
    (hXy : X.length = y.length)
    (hInv : matInvert (matAdd Lambda0 (xtxAcc X (X.headD []).length y.length)) = some L) :
    ∃ post : Post, bayesianRegression X y mu0 Lambda0 a0 b0 = some post ∧
      post.LambdaN = matAdd Lambda0 (matMul (matTranspose X) X) ∧
      matInvert post.LambdaN = some post.LambdaN_inv ∧
      post.muN = matVecMul post.LambdaN_inv
        (vecAdd (matVecMul Lambda0 mu0) (matVecMul (matTranspose X) y)) ∧
      post.aN = a0 + (y.length : ℚ) / 2 ∧
      post.bN = b0 + (1 / 2) * (vecDot y y + vecDot mu0 (matVecMul Lambda0 mu0)
        - vecDot post.muN (matVecMul post.LambdaN post.muN)) ∧
      logMLof Lambda0 a0 b0 post
        = -(y.length : ℝ) / 2 * Real.log (2 * Real.pi)
          + (1 / 2) * Real.log |((matDet Lambda0 : ℚ) : ℝ)|
          - (1 / 2) * Real.log |((matDet post.LambdaN : ℚ) : ℝ)|
          + (a0 : ℝ) * Real.log (b0 : ℝ) - (post.aN : ℝ) * Real.log (post.bN : ℝ)
          + lgR (post.aN : ℝ) - lgR (a0 : ℝ) := by
  rw [matMul_transpose_eq_xtxAcc X y.length hXy, matVecMul_transpose_eq_xtyAcc X y hXy]
  simp only [bayesianRegression, hInv]
  refine ⟨_, rfl, rfl, hInv, rfl, rfl, rfl, ?_⟩
  norm_num [logMLof]

/-- Witness for C1 at X = [[1,0],[1,1]], y = [1,2], unit prior precision. -/
theorem C1_witness :
    ∃ post : Post,
      bayesianRegression [[1, 0], [1, 1]] [1, 2] [0, 0] [[1, 0], [0, 1]] 3 1 = some post ∧
      post.LambdaN
        = matAdd [[1, 0], [0, 1]] (matMul (matTranspose [[1, 0], [1, 1]]) [[1, 0], [1, 1]]) := by
  obtain ⟨post, h1, h2, -⟩ :=
    C1_conjugate_update [[1, 0], [1, 1]] [1, 2] [0, 0] [[1, 0], [0, 1]] 3 1
      [[2/5, -1/5], [-1/5, 3/5]] (by with_unfolding_all decide) (by with_unfolding_all decide)
  exact ⟨post, h1, h2⟩

/-- Claim C3, counterexample: at X = [[1,0]] (singular XᵀX = [[1,0],[0,0]])
with the unit prior precision, the claim says the call must fail, but
bayesianRegression succeeds: only ΛN-singularity causes the failure value
(a singular XᵀX merely makes the OLS side-computation fall back to muN,
lines 284-285). -/
theorem C3_counterexample :
    matInvert (xtxAcc ([[1, 0]] : List (List ℚ)) 2 1) = none ∧
    (bayesianRegression [[1, 0]] [0] [0, 0] [[1, 0], [0, 1]] 3 1).isSome = true := by
  with_unfolding_all decide

/-- Claim C3 as amended: bayesianRegression returns the designated failure
value (none) exactly when the kernel's invert reports ΛN = Λ0 + XᵀX
singular (pivot magnitude below 1e-14); XᵀX-singularity alone does not
cause a failure. -/
theorem C3_failure_iff_LambdaN_singular (X : List (List ℚ)) (y mu0 : List ℚ)
    (Lambda0 : List (List ℚ)) (a0 b0 : ℚ) :
    bayesianRegression X y mu0 Lambda0 a0 b0 = none ↔
      matInvert (matAdd Lambda0 (xtxAcc X (X.headD []).length y.length)) = none := by
  rcases hInv : matInvert (matAdd Lambda0 (xtxAcc X (X.headD []).length y.length))
    with _ | L <;> simp only [bayesianRegression, hInv] <;> simp

/-- Claim C5, counterexample: growing the dataset [([1,0]), y=0] by one
observation ([1,0], y=10) strictly increases the marginal posterior
variance (bN/aN)·[ΛN⁻¹]_jj of coefficient j = 1 from 2/7 to 103/12;
the claimed strict decrease is false. -/
theorem C5_counterexample :
    ((bayesianRegression [[1, 0]] [0] [0, 0] [[1, 0], [0, 1]] 3 1).map
      (fun post => post.bN / post.aN * (post.LambdaN_inv.getD 1 []).getD 1 0))
      = some (2 / 7) ∧
    ((bayesianRegression [[1, 0], [1, 0]] [0, 10] [0, 0] [[1, 0], [0, 1]] 3 1).map
      (fun post => post.bN / post.aN * (post.LambdaN_inv.getD 1 []).getD 1 0))
      = some (103 / 12) ∧
    (2 / 7 : ℚ) < 103 / 12 := by with_unfolding_all decide

/-- Claim C5 as amended: the shape aN = a0 + n/2 is strictly monotone in the
observation count (the variance part of the claim fails, see the
counterexample). -/
theorem C5_aN_strict_mono (X1 X2 : List (List ℚ)) (y1 y2 mu01 mu02 : List ℚ)
    (L01 L02 : List (List ℚ)) (a0 b01 b02 : ℚ) (p1 p2 : Post)
    (h1 : bayesianRegression X1 y1 mu01 L01 a0 b01 = some p1)
    (h2 : bayesianRegression X2 y2 mu02 L02 a0 b02 = some p2)
    (hlen : y1.length < y2.length) :
    p1.aN < p2.aN := by
  obtain ⟨e1, -⟩ := bayesReg_aN X1 y1 mu01 L01 a0 b01 p1 h1
  obtain ⟨e2, -⟩ := bayesReg_aN X2 y2 mu02 L02 a0 b02 p2 h2
  rw [e1, e2]
  have : (y1.length : ℚ) < y2.length := by exact_mod_cast hlen
  linarith

/-- Witness for the amended C5 at one versus two observations. -/
theorem C5_witness : (7 / 2 : ℚ) < 4 := by
  have h := C5_aN_strict_mono [[1, 0]] [[1, 0], [1, 0]] [0] [0, 10] [0, 0] [0, 0]
    [[1, 0], [0, 1]] [[1, 0], [0, 1]] 3 1 1
    ⟨[0, 0], [[2, 0], [0, 1]], [[1/2, 0], [0, 1]], 7/2, 1, 1, 2, [0, 0], 1⟩
    ⟨[10/3, 0], [[3, 0], [0, 1]], [[1/3, 0], [0, 1]], 4, 103/3, 2, 2, [10/3, 0], -1/9⟩
    (by with_unfolding_all decide) (by with_unfolding_all decide)
    (by with_unfolding_all decide)
  simpa using h

/-- Claim C8: for every model tag other than "3PH", "3PC" and "5P",
buildDesignMatrix returns the plain linear design [1, t] per row, ignoring
both change-point arguments (the default switch branch). -/
theorem C8_default_design (temps : List ℚ) (modelType : String) (cp1 cp2 : Option ℚ)
    (h1 : modelType ≠ "3PH") (h2 : modelType ≠ "3PC") (h3 : modelType ≠ "5P") :
    buildDesignMatrix temps modelType cp1 cp2 = temps.map (fun t => [1, t]) := by
  simp [buildDesignMatrix, h1, h2, h3]

/-- Witness for C8 at the tag "2P". -/
theorem C8_witness : buildDesignMatrix [1, 2] ("2P") none none = [[1, 1], [1, 2]] := by
  rw [C8_default_design [1, 2] ("2P") none none (by with_unfolding_all decide)
    (by with_unfolding_all decide) (by with_unfolding_all decide)]
  with_unfolding_all decide

/-- Claim C2: for every change-point scan that yields at least one valid
candidate, the posterior field over the returned candidate sequence sums
to 1 (exactly, in real arithmetic), and each candidate's posterior equals
exp(logML − max logML) divided by the sum of exp(logML − max logML) over
all valid candidates. -/
theorem C2_posterior_normalization (temps y : List ℚ) (modelType : String)
    (priors : Priors) (cpStep : ℚ)
    (hne : scanCands temps y modelType priors cpStep ≠ []) :
    ((changePointPosterior temps y modelType priors cpStep).map
        (fun r => r.posterior)).sum = 1 ∧
    (∀ r ∈ changePointPosterior temps y modelType priors cpStep,
      r.posterior = Real.exp (r.logML
          - (((scanCands temps y modelType priors cpStep).map
              (fun c => candLogML priors c.post)).foldl max
            (((scanCands temps y modelType priors cpStep).map
              (fun c => candLogML priors c.post)).headD 0)))
        / (((scanCands temps y modelType priors cpStep).map
            (fun c => candLogML priors c.post)).map
          (fun l => Real.exp (l
            - (((scanCands temps y modelType priors cpStep).map
                (fun c => candLogML priors c.post)).foldl max
              (((scanCands temps y modelType priors cpStep).map
                (fun c => candLogML priors c.post)).headD 0))))).sum) := by
  rcases hs : scanCands temps y modelType priors cpStep with _ | ⟨c, cs⟩
  · exact absurd hs hne
  · unfold changePointPosterior
    rw [hs]
    constructor
    · rw [List.map_map]
      have := sum_exp_div_sum_exp
        (((c :: cs)).map (fun cand => candLogML priors cand.post))
        ((((c :: cs)).map (fun cand => candLogML priors cand.post)).foldl max
          (candLogML priors c.post)) (by simp)
      rw [List.map_map] at this
      simpa [Function.comp] using this
    · intro r hr
      obtain ⟨cand, hcand, rfl⟩ := List.mem_map.mp hr
      simp [List.map_map, Function.comp]

/-- Witness for C2: a 3PH scan over temps [0, 6] with one valid candidate. -/
theorem C2_witness :
    ((changePointPosterior [0, 6] [0, 0] ("3PH") ⟨0, 0, none, 1, 3, 1⟩ (1/2)).map
        (fun r => r.posterior)).sum = 1 :=
  (C2_posterior_normalization [0, 6] [0, 0] ("3PH") ⟨0, 0, none, 1, 3, 1⟩ (1/2)
    (by with_unfolding_all decide)).1

/-- Claim C6: every candidate grid point whose regression yields a singular
system is omitted from the returned candidate sequence, and if no grid
point yields a valid posterior the scan returns the empty sequence rather
than any fallback candidate. -/
theorem C6_singular_dropped (temps y : List ℚ) (modelType : String)
    (priors : Priors) (cpStep : ℚ) :
    (∀ pr ∈ candGrid temps modelType cpStep,
        candReg temps y modelType priors pr = none →
          pr ∉ (changePointPosterior temps y modelType priors cpStep).map
            (fun r => (r.cp, r.cp2))) ∧
    ((∀ pr ∈ candGrid temps modelType cpStep,
        candReg temps y modelType priors pr = none) →
      changePointPosterior temps y modelType priors cpStep = []) := by
  constructor
  · intro pr hgrid hnone hmem
    rw [cpPosterior_map_locations] at hmem
    obtain ⟨cand, hcand, heq⟩ := List.mem_map.mp hmem
    obtain ⟨pr2, hpr2, hfm⟩ := List.mem_filterMap.mp hcand
    obtain ⟨post, hpost, hg⟩ := Option.map_eq_some'.mp hfm
    have : pr2 = pr := by
      rw [← heq, ← hg]
    rw [this] at hpost
    rw [hnone] at hpost
    exact Option.noConfusion hpost
  · intro hall
    have hs : scanCands temps y modelType priors cpStep = [] := by
      unfold scanCands
      rw [List.filterMap_eq_nil_iff]
      intro pr hpr
      rw [hall pr hpr]
      rfl
    unfold changePointPosterior
    rw [hs]

/-- Witness for C6: a 5P scan over temps [0, 14] with zero prior strength;
its single grid point (4, 10) has singular ΛN = XᵀX and is dropped,
leaving the empty result. -/
theorem C6_witness :
    (∀ pr ∈ candGrid [0, 14] ("5P") (1/2),
        candReg [0, 14] [0, 0] ("5P") ⟨0, 0, none, 0, 3, 1⟩ pr = none) ∧
    changePointPosterior [0, 14] [0, 0] ("5P") ⟨0, 0, none, 0, 3, 1⟩ (1/2) = [] := by
  have hall : ∀ pr ∈ candGrid [0, 14] ("5P") (1/2),
      candReg [0, 14] [0, 0] ("5P") ⟨0, 0, none, 0, 3, 1⟩ pr = none := by
    with_unfolding_all decide
  exact ⟨hall,
    (C6_singular_dropped [0, 14] [0, 0] ("5P") ⟨0, 0, none, 0, 3, 1⟩ (1/2)).2 hall⟩

/-- Claim C9: for every model tag other than "3PH", "3PC" and "5P"
(including the default linear shape), changePointPosterior scans no
candidates and returns the empty sequence, without error. -/
theorem C9_default_scan_empty (temps y : List ℚ) (modelType : String)
    (priors : Priors) (cpStep : ℚ)
    (h1 : modelType ≠ "3PH") (h2 : modelType ≠ "3PC") (h3 : modelType ≠ "5P") :
    candGrid temps modelType cpStep = [] ∧
    changePointPosterior temps y modelType priors cpStep = [] := by
  have hg : candGrid temps modelType cpStep = [] := by
    simp [candGrid, h1, h2, h3]
  have hs : scanCands temps y modelType priors cpStep = [] := by
    simp [scanCands, hg]
  refine ⟨hg, ?_⟩
  unfold changePointPosterior
  rw [hs]

/-- Witness for C9 at the default tag "2P". -/
theorem C9_witness :
    changePointPosterior [0, 6] [0, 0] ("2P") ⟨0, 0, none, 1, 3, 1⟩ (1/2) = [] :=
  (C9_default_scan_empty [0, 6] [0, 0] ("2P") ⟨0, 0, none, 1, 3, 1⟩ (1/2)
    (by with_unfolding_all decide) (by with_unfolding_all decide)
    (by with_unfolding_all decide)).2

/-- Claim C4, counterexample: parameterPosterior returns no 50% credible
interval (the source object has no ci50 key; at a concrete posterior the
field reads back as the absent value), so the claimed "50%, 80% and 95%
credible intervals" is false as stated. -/
theorem C4_counterexample :
    (parameterPosterior ⟨[0, 0], [[1, 0], [0, 1]], [[1, 0], [0, 1]], 1, 1, 1, 2, [0, 0], 0⟩
      1 200).ci50 = none := rfl

/-- Claim C4 as amended: parameterPosterior(post, j) returns the Student-t
marginal summary with ν = 2·aN, location muN[j], scale
sqrt((bN/aN)·[ΛN⁻¹]_jj), a density curve of 200 ordered (value, density)
points spanning ±4 scale units around the location, the mean, and the 80%
and 95% credible intervals (no 50% interval is produced). -/
theorem C4_marginal_summary (post : Post) (j : ℕ) (S : MarginalSummary)
    (nu mu scale : ℝ)
    (hS : S = parameterPosterior post j 200)
    (hnu : nu = 2 * (post.aN : ℝ))
    (hmu : mu = ((post.muN.getD j 0 : ℚ) : ℝ))
    (hscale : scale = Real.sqrt (((post.bN / post.aN : ℚ) : ℝ)
      * (((post.LambdaN_inv.getD j []).getD j 0 : ℚ) : ℝ))) :
    S.nu = nu ∧ S.mean = mu ∧ S.scale = scale ∧
    S.points.length = 200 ∧
    (S.points.getD 0 (0, 0)).1 = mu - 4 * scale ∧
    (S.points.getD 199 (0, 0)).1 = mu + 4 * scale ∧
    S.points.Pairwise (fun q1 q2 => q1.1 ≤ q2.1) ∧
    (∀ q ∈ S.points, q.2 = studentTPDF q.1 nu mu scale) ∧
    S.ci95 = (studentTQuantile 0.025 nu mu scale, studentTQuantile 0.975 nu mu scale) ∧
    S.ci80 = (studentTQuantile 0.10 nu mu scale, studentTQuantile 0.90 nu mu scale) ∧
    S.ci50 = none := by
  subst hS hnu hmu hscale
  have hpts : (parameterPosterior post j 200).points
      = curvePoints (2 * (post.aN : ℝ)) ((post.muN.getD j 0 : ℚ) : ℝ)
        (Real.sqrt (((post.bN / post.aN : ℚ) : ℝ)
          * (((post.LambdaN_inv.getD j []).getD j 0 : ℚ) : ℝ))) 200 := rfl
  refine ⟨rfl, rfl, rfl, ?_, ?_, ?_, ?_, ?_, rfl, rfl, rfl⟩
  · rw [hpts, curvePoints_length]
  · rw [hpts, curvePoints_getD _ _ _ 200 0 (by norm_num)]
    norm_num
  · rw [hpts, curvePoints_getD _ _ _ 200 199 (by norm_num)]
    push_cast
    norm_num
    ring
  · rw [hpts]
    exact curvePoints_pairwise _ _ _ 200 (Real.sqrt_nonneg _)
  · rw [hpts]
    exact curvePoints_snd _ _ _ 200

/-- Witness for the amended C4 at a concrete posterior record. -/
theorem C4_witness :
    (parameterPosterior ⟨[0, 5], [[2, 0], [0, 1]], [[1/2, 0], [0, 1]], 2, 3, 2, 2, [0, 5], 1⟩
        1 200).points.length = 200 ∧
    (parameterPosterior ⟨[0, 5], [[2, 0], [0, 1]], [[1/2, 0], [0, 1]], 2, 3, 2, 2, [0, 5], 1⟩
        1 200).ci50 = none := by
  obtain ⟨-, -, -, h4, -, -, -, -, -, -, h11⟩ :=
    C4_marginal_summary
      ⟨[0, 5], [[2, 0], [0, 1]], [[1/2, 0], [0, 1]], 2, 3, 2, 2, [0, 5], 1⟩ 1
      (parameterPosterior
        ⟨[0, 5], [[2, 0], [0, 1]], [[1/2, 0], [0, 1]], 2, 3, 2, 2, [0, 5], 1⟩ 1 200)
      (2 * ((2 : ℚ) : ℝ)) (((5 : ℚ) : ℝ))
      (Real.sqrt (((3 / 2 : ℚ) : ℝ) * ((1 : ℚ) : ℝ)))
      rfl rfl (by norm_num) (by norm_num)
  exact ⟨h4, h11⟩

/-- Claim C10: logGamma is total; for every z ≤ 0 it returns positive
infinity, and on the reflection branch 0 < z < 0.5 it recurses exactly
once, on 1 − z > 0.5, where the non-recursive Lanczos branch applies — so
the recursion depth is at most one. -/
theorem C10_logGamma_total (z : ℝ) :
    (z ≤ 0 → logGamma z = ⊤) ∧
    (0 < z → z < 1 / 2 →
      1 / 2 < 1 - z ∧
      logGamma z
        = ((Real.log (Real.pi / Real.sin (Real.pi * z))
            - lanczosLogGamma (1 - z) : ℝ) : EReal)) := by
  constructor
  · intro hz
    rw [logGamma]
    rw [if_pos hz]
  · intro hz hz2
    refine ⟨by linarith, ?_⟩
    rw [logGamma]
    rw [if_neg (by linarith), dif_pos hz2]
    rw [logGamma]
    rw [if_neg (by linarith), dif_neg (by linarith)]
    exact (EReal.coe_sub _ _).symm

/-- Witness for C10 at z = −1 (infinity branch) and z = 1/4 (reflection). -/
theorem C10_witness :
    logGamma (-1) = ⊤ ∧
    logGamma (1/4)
      = ((Real.log (Real.pi / Real.sin (Real.pi * (1/4)))
          - lanczosLogGamma (1 - 1/4) : ℝ) : EReal) :=
  ⟨(C10_logGamma_total (-1)).1 (by norm_num),
   ((C10_logGamma_total (1/4)).2 (by norm_num) (by norm_num)).2⟩

theorem histBins_length (samples : List ℝ) (nSamples : ℕ) (sMin binWidth : ℝ) :
    (histBins samples nSamples sMin binWidth).length = 50 := by
  simp [histBins]

theorem histBins_getD (samples : List ℝ) (nSamples : ℕ) (sMin binWidth : ℝ)
    (i : ℕ) (h : i < 50) :
    (histBins samples nSamples sMin binWidth).getD i (⟨0, 0, 0, 0, 0⟩ : SavingsBin)
      = ⟨sMin + ((i : ℝ) + 0.5) * binWidth,
          sMin + (i : ℝ) * binWidth,
          sMin + ((i : ℝ) + 1) * binWidth,
          samples.countP (fun s => decide (binIdxOf sMin binWidth s = i)),
          ((samples.countP (fun s => decide (binIdxOf sMin binWidth s = i)) : ℕ) : ℝ)
            / ((nSamples : ℝ) * binWidth)⟩ := by
  unfold histBins
  rw [getD_range_map, if_pos h]

/-- Claim C7, counterexample: at nSamples = 1 — squarely inside the claim's
"every sample count nSamples ≥ 1" — the sample range is zero, so the bin
width is zero, the binning loop's index is NaN, and the source throws a
TypeError (`bins[NaN].count++`) instead of returning; the model's
designated no-result value records that the claimed record is not
returned. -/
theorem C7_counterexample :
    savingsPosterior ("2P") 0 0 [⟨0, 0⟩] 1 (fun _ => []) = none := by
  have hsam : savingsSamples ("2P") 0 0 [⟨0, 0⟩] 1 (fun _ => []) = [0] := by
    simp [savingsSamples, savingsSample, vecDot, List.range_succ,
      List.insertionSort, List.orderedInsert]
  simp only [savingsPosterior, hsam]
  rw [if_pos]
  refine ⟨by simp, ?_⟩
  norm_num

/-- Claim C7 as amended: for every model shape, change points, non-empty
reporting data, sample count nSamples ≥ 1, and any realization of the
random draws whose savings totals are not all equal (nonzero sample
range, so the bin width is nonzero and the binning loop cannot hit its
NaN-index TypeError), savingsPosterior returns a result whose sample
sequence has length nSamples and is sorted nondecreasing, whose median is
the sample at index ⌊nSamples·0.5⌋, whose equal-tailed 95% and 80%
intervals are the samples at indices ⌊nSamples·0.025⌋/⌊nSamples·0.975⌋
and ⌊nSamples·0.10⌋/⌊nSamples·0.90⌋, and whose histogram consists of 50
equal-width bins spanning the sample range. -/
theorem C7_savings_summary (modelType : String) (cp1 cp2 : ℝ)
    (reportingData : List RDatum) (nSamples : ℕ) (betaDraw : ℕ → List ℝ)
    (sMin sMax w : ℝ)
    (hn : 1 ≤ nSamples) (hrd : reportingData ≠ [])
    (hsMin : sMin = (savingsSamples modelType cp1 cp2 reportingData nSamples betaDraw).getD 0 0)
    (hsMax : sMax = (savingsSamples modelType cp1 cp2 reportingData nSamples betaDraw).getD
      (nSamples - 1) 0)
    (hw : w = (sMax - sMin) / 50)
    (hne : sMax ≠ sMin) :
    ∃ R : SavingsResult,
      savingsPosterior modelType cp1 cp2 reportingData nSamples betaDraw = some R ∧
      R.samples = savingsSamples modelType cp1 cp2 reportingData nSamples betaDraw ∧
      R.samples.Sorted (· ≤ ·) ∧
      R.samples.length = nSamples ∧
      R.median = R.samples.getD (qIdx nSamples (5/10)) 0 ∧
      R.ci95 = (R.samples.getD (qIdx nSamples (25/1000)) 0,
        R.samples.getD (qIdx nSamples (975/1000)) 0) ∧
      R.ci80 = (R.samples.getD (qIdx nSamples (10/100)) 0,
        R.samples.getD (qIdx nSamples (90/100)) 0) ∧
      R.bins.length = 50 ∧
      (∀ i, i < 50 →
        (R.bins.getD i ⟨0, 0, 0, 0, 0⟩).lo = sMin + (i : ℝ) * w ∧
        (R.bins.getD i ⟨0, 0, 0, 0, 0⟩).hi = sMin + ((i : ℝ) + 1) * w) ∧
      (R.bins.getD 0 ⟨0, 0, 0, 0, 0⟩).lo = sMin ∧
      (R.bins.getD 49 ⟨0, 0, 0, 0, 0⟩).hi = sMax := by
  subst hsMin hsMax hw
  have hguard : ¬(savingsSamples modelType cp1 cp2 reportingData nSamples betaDraw ≠ [] ∧
      ((savingsSamples modelType cp1 cp2 reportingData nSamples betaDraw).getD
          (nSamples - 1) 0
        - (savingsSamples modelType cp1 cp2 reportingData nSamples betaDraw).getD 0 0)
        / 50 = 0) := by
    rintro ⟨-, h0⟩
    rcases div_eq_zero_iff.mp h0 with h1 | h1
    · exact hne (by linarith)
    · norm_num at h1
  simp only [savingsPosterior]
  rw [if_neg hguard]
  refine ⟨_, rfl, rfl, ?_, ?_, rfl, rfl, rfl, ?_, ?_, ?_, ?_⟩
  · unfold savingsSamples
    exact List.sorted_insertionSort _ _
  · unfold savingsSamples
    rw [(List.perm_insertionSort _ _).length_eq]
    simp
  · exact histBins_length _ _ _ _
  · intro i hi
    rw [histBins_getD _ _ _ _ i hi]
    exact ⟨rfl, rfl⟩
  · rw [histBins_getD _ _ _ _ 0 (by norm_num)]
    norm_num
  · rw [histBins_getD _ _ _ _ 49 (by norm_num)]
    push_cast
    ring

/-- Witness for the amended C7: two samples with distinct savings totals,
one reporting observation. -/
theorem C7_witness :
    ∃ R : SavingsResult,
      savingsPosterior ("2P") 0 0 [⟨0, 0⟩] 2 (fun s => [(s : ℝ), 0]) = some R ∧
      R.samples.Sorted (· ≤ ·) ∧ R.samples.length = 2 := by
  have hsam : savingsSamples ("2P") 0 0 [⟨0, 0⟩] 2 (fun s => [(s : ℝ), 0]) = [0, 1] := by
    have hpred : predictorVec ("2P") 0 0 0 = [1, 0] := by
      unfold predictorVec
      rw [if_neg (by with_unfolding_all decide), if_neg (by with_unfolding_all decide),
        if_neg (by with_unfolding_all decide)]
    simp [savingsSamples, savingsSample, hpred, vecDot, List.range_succ,
      List.insertionSort, List.orderedInsert]
  obtain ⟨R, h1, -, h3, h4, -⟩ :=
    C7_savings_summary ("2P") 0 0 [⟨0, 0⟩] 2 (fun s => [(s : ℝ), 0])
      ((savingsSamples ("2P") 0 0 [⟨0, 0⟩] 2 (fun s => [(s : ℝ), 0])).getD 0 0)
      ((savingsSamples ("2P") 0 0 [⟨0, 0⟩] 2 (fun s => [(s : ℝ), 0])).getD (2 - 1) 0)
      ((((savingsSamples ("2P") 0 0 [⟨0, 0⟩] 2 (fun s => [(s : ℝ), 0])).getD (2 - 1) 0)
        - ((savingsSamples ("2P") 0 0 [⟨0, 0⟩] 2 (fun s => [(s : ℝ), 0])).getD 0 0)) / 50)
      (by norm_num) (by simp) rfl rfl rfl
      (by rw [hsam]; norm_num)
  exact ⟨R, h1, h3, h4⟩

end BayesEngine
